import Mathlib

/-!
# Verification of the funedu statistics aggregation subsystem

Shallow embedding of the `MemStorage` in-memory store (`server/storage.ts`,
given here as `src/unnamed/part_000`) and of the dashboard computations in
the route layer (`src/db.ts`, `registerRoutes`).

Modelling conventions:
* JS `Map<number, E>` collections are `List E` in insertion order
  (`Array.from(map.values())` iterates insertion order); `Map.set` is
  `mapSet`: replace in place when the key is present, append otherwise.
* Donation amounts and goals are `ℚ` (the numeric value after the source's
  `Number(...)` / `parseFloat(...)` coercion of a decimal-as-string).
* `Math.round x` is Mathlib's `round` (`⌊x + 1/2⌋`, halves toward +∞, as in JS).
* JS `Array.prototype.sort` with comparator `(a, b) => k b - k a` is a stable
  sort for the total preorder `k b ≤ k a`; a stable sorted result is unique,
  so it is modelled by `List.mergeSort` with that preorder.
* The entity record shapes come from `@shared/schema`, which is not among the
  given sources; fields are modelled from the spec's data model (§3).
  `createdAt` / `date` timestamps are abstract `Nat` values, supplied to the
  create operations as a `now` argument (the source's `new Date()`).
-/

namespace Funedu

/-- User entity (id and createdAt are assigned by the store). -/
structure User where
  id : Nat
  username : String
  email : String
  password : String
  role : String
  createdAt : Nat
deriving DecidableEq

/-- School entity. `fundraisingGoal` is numeric (0 when absent). -/
structure School where
  id : Nat
  userId : Nat
  name : String
  adminName : String
  address : String
  phone : String
  fundraisingGoal : ℚ
  createdAt : Nat
deriving DecidableEq

/-- Student entity. `personalGoal` is nullable (`none` models JS `null`). -/
structure Student where
  id : Nat
  userId : Nat
  schoolId : Nat
  firstName : String
  lastName : String
  grade : String
  personalGoal : Option ℚ
  createdAt : Nat
deriving DecidableEq

/-- Donation entity. `amount` is the numeric value of the stored amount. -/
structure Donation where
  id : Nat
  studentId : Nat
  amount : ℚ
  createdAt : Nat
deriving DecidableEq

/-- Event entity. Modelled from the spec: id, school id, title/date/other
descriptive fields, creation time (the `@shared/schema` source is absent). -/
structure Event where
  id : Nat
  schoolId : Nat
  title : String
  description : String
  date : Nat
  location : String
  createdAt : Nat
deriving DecidableEq

/-- Insert payload for `createUser` (store assigns id and createdAt). -/
structure InsertUser where
  username : String
  email : String
  password : String
  role : String
deriving DecidableEq

structure InsertSchool where
  userId : Nat
  name : String
  adminName : String
  address : String
  phone : String
  fundraisingGoal : ℚ
deriving DecidableEq

structure InsertStudent where
  userId : Nat
  schoolId : Nat
  firstName : String
  lastName : String
  grade : String
  personalGoal : Option ℚ
deriving DecidableEq

structure InsertDonation where
  studentId : Nat
  amount : ℚ
deriving DecidableEq

structure InsertEvent where
  schoolId : Nat
  title : String
  description : String
  date : Nat
  location : String
deriving DecidableEq

/-- Model of `Partial<InsertEvent>`: a patch whose present fields override. -/
structure EventPatch where
  schoolId : Option Nat
  title : Option String
  description : Option String
  date : Option Nat
  location : Option String
deriving DecidableEq

/-- The `MemStorage` state: the five collections in insertion order plus the
auto-increment counters. -/
structure MemStorage where
  users : List User
  schools : List School
  students : List Student
  donations : List Donation
  events : List Event
  userCurrentId : Nat
  schoolCurrentId : Nat
  studentCurrentId : Nat
  donationCurrentId : Nat
  eventCurrentId : Nat
deriving DecidableEq

/-- The state built by the `MemStorage` constructor: empty maps, counters 1. -/
def MemStorage.empty : MemStorage :=
  { users := [], schools := [], students := [], donations := [], events := []
    userCurrentId := 1, schoolCurrentId := 1, studentCurrentId := 1
    donationCurrentId := 1, eventCurrentId := 1 }

/-- JS `Map.set` on an insertion-ordered collection: if the key is already
present the entry is replaced in place, otherwise the entry is appended. -/
def mapSet {α : Type} (getId : α → Nat) (l : List α) (id : Nat) (a : α) :
    List α :=
  if l.any (fun x => getId x == id) then
    l.map (fun x => if getId x == id then a else x)
  else
    l ++ [a]

/-- Source method `MemStorage.createUser`. -/
def createUser (s : MemStorage) (ins : InsertUser) (now : Nat) :
    User × MemStorage :=
  let id := s.userCurrentId
  let user : User := { id := id, username := ins.username, email := ins.email
                       password := ins.password, role := ins.role
                       createdAt := now }
  (user, { s with users := mapSet User.id s.users id user
                  userCurrentId := id + 1 })

/-- Source method `MemStorage.createSchool`. -/
def createSchool (s : MemStorage) (ins : InsertSchool) (now : Nat) :
    School × MemStorage :=
  let id := s.schoolCurrentId
  let school : School := { id := id, userId := ins.userId, name := ins.name
                           adminName := ins.adminName, address := ins.address
                           phone := ins.phone
                           fundraisingGoal := ins.fundraisingGoal
                           createdAt := now }
  (school, { s with schools := mapSet School.id s.schools id school
                    schoolCurrentId := id + 1 })

/-- Source method `MemStorage.createStudent`. -/
def createStudent (s : MemStorage) (ins : InsertStudent) (now : Nat) :
    Student × MemStorage :=
  let id := s.studentCurrentId
  let student : Student := { id := id, userId := ins.userId
                             schoolId := ins.schoolId
                             firstName := ins.firstName
                             lastName := ins.lastName, grade := ins.grade
                             personalGoal := ins.personalGoal
                             createdAt := now }
  (student, { s with students := mapSet Student.id s.students id student
                     studentCurrentId := id + 1 })

/-- Source method `MemStorage.createDonation`. -/
def createDonation (s : MemStorage) (ins : InsertDonation) (now : Nat) :
    Donation × MemStorage :=
  let id := s.donationCurrentId
  let donation : Donation := { id := id, studentId := ins.studentId
                               amount := ins.amount, createdAt := now }
  (donation, { s with donations := mapSet Donation.id s.donations id donation
                      donationCurrentId := id + 1 })

/-- Source method `MemStorage.createEvent`. -/
def createEvent (s : MemStorage) (ins : InsertEvent) (now : Nat) :
    Event × MemStorage :=
  let id := s.eventCurrentId
  let event : Event := { id := id, schoolId := ins.schoolId
                         title := ins.title, description := ins.description
                         date := ins.date, location := ins.location
                         createdAt := now }
  (event, { s with events := mapSet Event.id s.events id event
                   eventCurrentId := id + 1 })

/-- Source method `MemStorage.getStudentsBySchoolId`: filter the students map by school. -/
def getStudentsBySchoolId (s : MemStorage) (schoolId : Nat) : List Student :=
  s.students.filter (fun st => st.schoolId == schoolId)

/-- Source method `MemStorage.getDonationsByStudentId`: filter the donations map. -/
def getDonationsByStudentId (s : MemStorage) (studentId : Nat) :
    List Donation :=
  s.donations.filter (fun d => d.studentId == studentId)

/-- Source method `MemStorage.getEvent`: `Map.get` on the events collection. -/
def getEvent (s : MemStorage) (id : Nat) : Option Event :=
  s.events.find? (fun e => e.id == id)

/-- Result of `MemStorage.getStudentStats`. -/
structure StudentStats where
  totalRaised : ℚ
  totalDonations : Nat
  largestDonation : ℚ
  averageDonation : ℚ
deriving DecidableEq

/-- Result of `MemStorage.getSchoolStats`. -/
structure SchoolStats where
  totalRaised : ℚ
  totalDonations : Nat
  activeStudents : Nat
deriving DecidableEq

/-- JS `Math.max(a₁, ..., aₙ)` for a non-empty argument list (the source guards
the call with `length > 0`; the `[]` branch is never reached there). -/
def jsMaxList : List ℚ → ℚ
  | [] => 0
  | a :: as => as.foldl max a

/-- Source method `MemStorage.getStudentStats`: reduce-sum, guarded max, guarded average
over the student's donations. -/
def getStudentStats (s : MemStorage) (studentId : Nat) : StudentStats :=
  let studentDonations := getDonationsByStudentId s studentId
  let totalRaised := studentDonations.foldl (fun sum d => sum + d.amount) 0
  let largestDonation :=
    if studentDonations.length > 0 then
      jsMaxList (studentDonations.map (fun d => d.amount))
    else 0
  let averageDonation :=
    if studentDonations.length > 0 then
      totalRaised / (studentDonations.length : ℚ)
    else 0
  { totalRaised := totalRaised, totalDonations := studentDonations.length
    largestDonation := largestDonation, averageDonation := averageDonation }

/-- Source method `MemStorage.getSchoolStats`: donations whose studentId is in the school's
student-id list (`studentIds.includes`), reduced to totals. -/
def getSchoolStats (s : MemStorage) (schoolId : Nat) : SchoolStats :=
  let schoolStudents := getStudentsBySchoolId s schoolId
  let studentIds := schoolStudents.map (fun st => st.id)
  let allDonations := s.donations.filter
    (fun d => studentIds.contains d.studentId)
  { totalRaised := allDonations.foldl (fun sum d => sum + d.amount) 0
    totalDonations := allDonations.length
    activeStudents := schoolStudents.length }

/-- A student enriched with `amountRaised` and `goalProgress`
(the `{...student, amountRaised, goalProgress}` spread). -/
structure RankedStudent where
  student : Student
  amountRaised : ℚ
  goalProgress : ℤ
deriving DecidableEq

/-- The expression `student.personalGoal ? Math.round((totalRaised / Number(goal)) * 100) : 0`:
JS truthiness makes both a null and a zero goal yield 0. -/
def topGoalProgress (personalGoal : Option ℚ) (totalRaised : ℚ) : ℤ :=
  match personalGoal with
  | none => 0
  | some g => if g = 0 then 0 else round ((totalRaised / g) * 100)

/-- The enrichment step of `getTopPerformingStudents` (the `Promise.all` over
`schoolStudents.map`, which preserves list order). -/
def withProgress (s : MemStorage) (schoolId : Nat) : List RankedStudent :=
  (getStudentsBySchoolId s schoolId).map (fun student =>
    let stats := getStudentStats s student.id
    { student := student
      amountRaised := stats.totalRaised
      goalProgress := topGoalProgress student.personalGoal stats.totalRaised })

/-- Comparator of `sort((a, b) => b.amountRaised - a.amountRaised)` as a total
preorder: `a` may stay before `b` iff `b.amountRaised ≤ a.amountRaised`. -/
def rankedLE (a b : RankedStudent) : Bool :=
  decide (b.amountRaised ≤ a.amountRaised)

/-- Source method `MemStorage.getTopPerformingStudents`: enrich, stable-sort descending by
`amountRaised`, truncate with `slice(0, limit)`. -/
def getTopPerformingStudents (s : MemStorage) (schoolId : Nat)
    (limit : Nat) : List RankedStudent :=
  ((withProgress s schoolId).mergeSort rankedLE).take limit

/-- Variant of `getTopPerformingStudents` with the default `limit = 10`. -/
def getTopPerformingStudentsD (s : MemStorage) (schoolId : Nat) :
    List RankedStudent :=
  getTopPerformingStudents s schoolId 10

/-- The dashboard goal-progress computation of `registerRoutes`
(`src/db.ts`): same formula but capped with `Math.min(100, ...)`. -/
def dashboardGoalProgress (personalGoal : Option ℚ) (totalRaised : ℚ) : ℤ :=
  match personalGoal with
  | none => 0
  | some g => if g = 0 then 0
              else min 100 (round ((totalRaised / g) * 100))

/-- The grade labels of a student list in order of first occurrence
(`Object.keys(gradeGroups)` enumerates string keys in insertion order). -/
def gradeKeys : List Student → List String
  | [] => []
  | st :: rest => st.grade :: (gradeKeys rest).filter (fun g => g ≠ st.grade)

/-- Total raised by one grade group: the rollup loop adds each student's
`getStudentStats.totalRaised` to the bucket of the student's grade, so bucket
`g` accumulates exactly the totals of the students whose grade is `g`. -/
def gradeTotal (s : MemStorage) (sts : List Student) (g : String) : ℚ :=
  ((sts.filter (fun st => st.grade == g)).map
    (fun st => (getStudentStats s st.id).totalRaised)).sum

/-- One entry of the student dashboard's `classRankings`. -/
structure ClassRanking where
  grade : String
  totalRaised : ℚ
  percentage : ℤ
deriving DecidableEq

/-- Comparator of `sort((a, b) => b.totalRaised - a.totalRaised)`. -/
def rankingLE (a b : ClassRanking) : Bool :=
  decide (b.totalRaised ≤ a.totalRaised)

/-- The `classRankings` computation of the student dashboard route
(`src/db.ts`): group the school's students by grade, attach each group's
share of `getSchoolStats.totalRaised` (0 when that total is not positive),
sort descending by group total. -/
def classRankings (s : MemStorage) (schoolId : Nat) : List ClassRanking :=
  let schoolTotal := (getSchoolStats s schoolId).totalRaised
  let sts := getStudentsBySchoolId s schoolId
  ((gradeKeys sts).map (fun g =>
    { grade := g
      totalRaised := gradeTotal s sts g
      percentage :=
        if 0 < schoolTotal then
          round ((gradeTotal s sts g / schoolTotal) * 100)
        else 0 })).mergeSort rankingLE

/-- Spread merge `{...existingEvent, ...patch}`: fields present in the patch override,
the rest (in particular `id` and `createdAt`, absent from
`Partial<InsertEvent>`) are kept. -/
def applyPatch (e : Event) (p : EventPatch) : Event :=
  { id := e.id
    schoolId := p.schoolId.getD e.schoolId
    title := p.title.getD e.title
    description := p.description.getD e.description
    date := p.date.getD e.date
    location := p.location.getD e.location
    createdAt := e.createdAt }

/-- Source method `MemStorage.updateEvent`: `undefined` on a missing id, otherwise merge
the patch over the stored event and write it back under the same key. -/
def updateEvent (s : MemStorage) (id : Nat) (p : EventPatch) :
    Option Event × MemStorage :=
  match getEvent s id with
  | none => (none, s)
  | some existingEvent =>
      let updatedEvent := applyPatch existingEvent p
      (some updatedEvent,
        { s with events := mapSet Event.id s.events id updatedEvent })

/-- Operation `getStudentStats` as a state transformer: the method body only reads
`this.donations`, so the state passes through unchanged. -/
def getStudentStatsOp (s : MemStorage) (studentId : Nat) :
    StudentStats × MemStorage :=
  (getStudentStats s studentId, s)

/-- Operation `getSchoolStats` as a state transformer (reads only). -/
def getSchoolStatsOp (s : MemStorage) (schoolId : Nat) :
    SchoolStats × MemStorage :=
  (getSchoolStats s schoolId, s)

/-- Operation `getTopPerformingStudents` as a state transformer (reads only). -/
def getTopPerformingStudentsOp (s : MemStorage) (schoolId : Nat)
    (limit : Nat) : List RankedStudent × MemStorage :=
  (getTopPerformingStudents s schoolId limit, s)

/-- One create request against the store (payload plus the clock value the
source reads with `new Date()`). -/
inductive Op where
  | user (ins : InsertUser) (now : Nat)
  | school (ins : InsertSchool) (now : Nat)
  | student (ins : InsertStudent) (now : Nat)
  | donation (ins : InsertDonation) (now : Nat)
  | event (ins : InsertEvent) (now : Nat)
deriving DecidableEq

/-- Apply one create operation to the store. -/
def applyOp (s : MemStorage) : Op → MemStorage
  | .user ins now => (createUser s ins now).2
  | .school ins now => (createSchool s ins now).2
  | .student ins now => (createStudent s ins now).2
  | .donation ins now => (createDonation s ins now).2
  | .event ins now => (createEvent s ins now).2

/-- Run a sequence of create operations from the freshly constructed store. -/
def runOps (ops : List Op) : MemStorage :=
  ops.foldl applyOp MemStorage.empty

/-- A concrete store used by witnesses: one school (id 1) with students A
(goal 100, donations 30 and 40, grade "5") and B (goal 200, donation 50,
grade "6"); school id 2 has no students. -/
def demoStore : MemStorage :=
  { users := [], schools := [], events := []
    students := [
      { id := 1, userId := 1, schoolId := 1, firstName := "A", lastName := "a"
        grade := "5", personalGoal := some 100, createdAt := 0 },
      { id := 2, userId := 2, schoolId := 1, firstName := "B", lastName := "b"
        grade := "6", personalGoal := some 200, createdAt := 0 } ]
    donations := [
      { id := 1, studentId := 1, amount := 30, createdAt := 0 },
      { id := 2, studentId := 1, amount := 40, createdAt := 0 },
      { id := 3, studentId := 2, amount := 50, createdAt := 0 } ]
    userCurrentId := 3, schoolCurrentId := 2, studentCurrentId := 3
    donationCurrentId := 4, eventCurrentId := 1 }

/-- A concrete event used by the update-event witness. -/
def demoEvent : Event :=
  { id := 1, schoolId := 1, title := "Fair", description := "d"
    date := 10, location := "gym", createdAt := 3 }

/-- A concrete patch that sets only the title. -/
def demoPatch : EventPatch :=
  { schoolId := none, title := some "New", description := none
    date := none, location := none }

/-- A concrete store with one event, used by the update-event witness. -/
def demoEventStore : MemStorage :=
  { users := [], schools := [], students := [], donations := []
    events := [demoEvent]
    userCurrentId := 1, schoolCurrentId := 1, studentCurrentId := 1
    donationCurrentId := 1, eventCurrentId := 2 }

/-- Ids of one collection are strictly increasing, positive, and below the
collection's auto-increment counter. -/
def GoodIds (ids : List Nat) (c : Nat) : Prop :=
  ids.Pairwise (· < ·) ∧ (∀ i ∈ ids, 0 < i ∧ i < c) ∧ 0 < c

/-- The store invariant maintained by the create operations. -/
def StoreInv (s : MemStorage) : Prop :=
  GoodIds (s.users.map User.id) s.userCurrentId
  ∧ GoodIds (s.schools.map School.id) s.schoolCurrentId
  ∧ GoodIds (s.students.map Student.id) s.studentCurrentId
  ∧ GoodIds (s.donations.map Donation.id) s.donationCurrentId
  ∧ GoodIds (s.events.map Event.id) s.eventCurrentId

section Helpers

variable {α M : Type}

/-- The source's `reduce((sum, d) => sum + f d, init)` is `init + Σ`. -/
theorem foldl_add_eq [AddCommMonoid M] (f : α → M) :
    ∀ (l : List α) (init : M),
      l.foldl (fun acc x => acc + f x) init = init + (l.map f).sum
  | [], init => by simp
  | x :: xs, init => by
    rw [List.foldl_cons, foldl_add_eq f xs, List.map_cons, List.sum_cons,
      add_assoc]

theorem init_le_foldl_max : ∀ (as : List ℚ) (a : ℚ), a ≤ as.foldl max a
  | [], a => le_refl a
  | x :: xs, a =>
    le_trans (le_max_left a x) (init_le_foldl_max xs (max a x))

theorem mem_le_foldl_max :
    ∀ (as : List ℚ) (a x : ℚ), x ∈ as → x ≤ as.foldl max a
  | y :: ys, a, x, h => by
    rcases List.mem_cons.mp h with h1 | h2
    · subst h1
      exact le_trans (le_max_right a x) (init_le_foldl_max ys (max a x))
    · exact mem_le_foldl_max ys (max a y) x h2

theorem foldl_max_mem : ∀ (as : List ℚ) (a : ℚ), as.foldl max a ∈ a :: as
  | [], a => List.mem_singleton.mpr rfl
  | x :: xs, a => by
    have h := foldl_max_mem xs (max a x)
    rw [List.foldl_cons]
    rcases List.mem_cons.mp h with h1 | h2
    · rcases max_choice a x with hc | hc <;> rw [h1, hc]
      · exact List.mem_cons_self _ _
      · exact List.mem_cons_of_mem _ (List.mem_cons_self _ _)
    · exact List.mem_cons_of_mem _ (List.mem_cons_of_mem _ h2)

/-- `Math.max` over a non-empty list is `List.maximum`. -/
theorem maximum_cons_eq (a : ℚ) (as : List ℚ) :
    (a :: as).maximum = ((as.foldl max a : ℚ) : WithBot ℚ) := by
  rw [List.maximum_eq_coe_iff]
  refine ⟨foldl_max_mem as a, ?_⟩
  intro x hx
  rcases List.mem_cons.mp hx with h1 | h2
  · subst h1
    exact init_le_foldl_max as x
  · exact mem_le_foldl_max as a x h2

end Helpers

/-- C1: for every student, `getStudentStats` returns the sum of the
student's donation amounts, their count, their maximum (0 when there are
none), and the sum divided by the count (0 when there are none); with zero
donations every field is therefore 0. -/
theorem getStudentStats_spec (s : MemStorage) (studentId : Nat) :
    getStudentStats s studentId =
      { totalRaised :=
          ((getDonationsByStudentId s studentId).map (fun d => d.amount)).sum
        totalDonations := (getDonationsByStudentId s studentId).length
        largestDonation :=
          (((getDonationsByStudentId s studentId).map
            (fun d => d.amount)).maximum).unbot' 0
        averageDonation :=
          if (getDonationsByStudentId s studentId).length = 0 then 0
          else
            ((getDonationsByStudentId s studentId).map
              (fun d => d.amount)).sum /
              ((getDonationsByStudentId s studentId).length : ℚ) } := by
  cases h : getDonationsByStudentId s studentId with
  | nil => simp [getStudentStats, h]
  | cons d ds =>
    have hmax := maximum_cons_eq d.amount (ds.map (fun x => x.amount))
    simp only [getStudentStats, h, List.map_cons, hmax, jsMaxList,
      foldl_add_eq, List.length_cons, zero_add, WithBot.unbot'_coe]
    simp

/-- C2: for every school, `getSchoolStats` sums the amounts of exactly the
donations whose student id occurs among the school's students, counts those
donations, and reports the number of enrolled students; with zero students
it returns the all-zero record (it is a total function, no error). -/
theorem getSchoolStats_spec (s : MemStorage) (schoolId : Nat) :
    (getSchoolStats s schoolId =
      { totalRaised :=
          ((s.donations.filter (fun d =>
            ((getStudentsBySchoolId s schoolId).map
              (fun st => st.id)).contains d.studentId)).map
            (fun d => d.amount)).sum
        totalDonations :=
          (s.donations.filter (fun d =>
            ((getStudentsBySchoolId s schoolId).map
              (fun st => st.id)).contains d.studentId)).length
        activeStudents := (getStudentsBySchoolId s schoolId).length })
    ∧ (getStudentsBySchoolId s schoolId = [] →
        getSchoolStats s schoolId =
          { totalRaised := 0, totalDonations := 0, activeStudents := 0 }) := by
  constructor
  · simp [getSchoolStats, foldl_add_eq]
  · intro h
    simp [getSchoolStats, h, List.filter_eq_nil_iff]

/-- Witness for C2 at school id 2 of the demo store, which has no students. -/
theorem getSchoolStats_spec_witness :
    getSchoolStats demoStore 2 =
      { totalRaised := 0, totalDonations := 0, activeStudents := 0 } :=
  (getSchoolStats_spec demoStore 2).2 (by decide)

section FiberSum

variable {α M κ : Type}

/-- Splitting a filtered sum along a disjunction of disjoint predicates. -/
theorem sum_map_filter_or [AddCommMonoid M] (f : α → M) (p q : α → Bool)
    (hdisj : ∀ x, p x = true → q x = false) :
    ∀ l : List α,
      ((l.filter (fun x => p x || q x)).map f).sum
        = ((l.filter p).map f).sum + ((l.filter q).map f).sum
  | [] => by simp
  | x :: xs => by
    have ih := sum_map_filter_or f p q hdisj xs
    by_cases hp : p x = true
    · have hq := hdisj x hp
      simp only [List.filter_cons, hp, hq, Bool.true_or, if_true,
        Bool.false_eq_true, if_false, List.map_cons, List.sum_cons]
      rw [ih, add_assoc]
    · have hp' : p x = false := by simpa using hp
      by_cases hq : q x = true
      · simp only [List.filter_cons, hp', hq, Bool.false_or, if_true,
          Bool.false_eq_true, if_false, List.map_cons, List.sum_cons]
        rw [ih, add_left_comm]
      · have hq' : q x = false := by simpa using hq
        simp only [List.filter_cons, hp', hq', Bool.false_or,
          Bool.false_eq_true, if_false]
        exact ih

/-- Summing fibers over a duplicate-free key list equals the filtered sum
over all elements whose key occurs in the list. -/
theorem fiber_sum [AddCommMonoid M] [BEq κ] [LawfulBEq κ]
    (key : α → κ) (f : α → M) (l : List α) :
    ∀ ids : List κ, ids.Nodup →
      (ids.map (fun i =>
        ((l.filter (fun x => key x == i)).map f).sum)).sum
        = ((l.filter (fun x => decide (key x ∈ ids))).map f).sum
  | [], _ => by simp
  | i :: rest, hnd => by
    have hnotmem : i ∉ rest := (List.nodup_cons.mp hnd).1
    have ih := fiber_sum key f l rest (List.nodup_cons.mp hnd).2
    have hdisj : ∀ x, (key x == i) = true →
        (decide (key x ∈ rest)) = false := by
      intro x hx
      have : key x = i := by simpa using hx
      simp [this, hnotmem]
    have hsplit := sum_map_filter_or f (fun x => key x == i)
      (fun x => decide (key x ∈ rest)) hdisj l
    have hpred : (l.filter (fun x => decide (key x ∈ i :: rest)))
        = l.filter (fun x => (key x == i) || decide (key x ∈ rest)) := by
      simp only [List.decide_mem_cons]
    rw [List.map_cons, List.sum_cons, ih, hpred, hsplit]

/-- A length is the sum of a constant-one map. -/
theorem length_eq_sum_ones : ∀ l : List α,
    l.length = (l.map (fun _ => (1 : ℕ))).sum
  | [] => rfl
  | x :: xs => by
    rw [List.length_cons, List.map_cons, List.sum_cons,
      length_eq_sum_ones xs, Nat.add_comm]

end FiberSum

/-- `getStudentStats` total in filtered-sum form. -/
theorem studentStats_totalRaised (s : MemStorage) (studentId : Nat) :
    (getStudentStats s studentId).totalRaised
      = ((s.donations.filter (fun d => d.studentId == studentId)).map
          (fun d => d.amount)).sum := by
  simp [getStudentStats, getDonationsByStudentId, foldl_add_eq]

/-- `getStudentStats` count in filtered form. -/
theorem studentStats_totalDonations (s : MemStorage) (studentId : Nat) :
    (getStudentStats s studentId).totalDonations
      = (s.donations.filter (fun d => d.studentId == studentId)).length := by
  simp [getStudentStats, getDonationsByStudentId]

/-- School-level total raised equals the sum of the per-student totals,
provided the school's student ids are duplicate-free (they are: the students
collection models a `Map` keyed by id). -/
theorem schoolStats_totalRaised_eq_sum (s : MemStorage) (schoolId : Nat)
    (hnd : ((getStudentsBySchoolId s schoolId).map
      (fun st => st.id)).Nodup) :
    (getSchoolStats s schoolId).totalRaised
      = ((getStudentsBySchoolId s schoolId).map
          (fun st => (getStudentStats s st.id).totalRaised)).sum := by
  have hfib := fiber_sum (fun d : Donation => d.studentId)
    (fun d => d.amount) s.donations
    ((getStudentsBySchoolId s schoolId).map (fun st => st.id)) hnd
  calc (getSchoolStats s schoolId).totalRaised
      = ((s.donations.filter (fun d =>
          decide (d.studentId ∈ (getStudentsBySchoolId s schoolId).map
            (fun st => st.id)))).map (fun d => d.amount)).sum := by
        simp [getSchoolStats, foldl_add_eq, List.contains]
    _ = (((getStudentsBySchoolId s schoolId).map (fun st => st.id)).map
          (fun i => ((s.donations.filter (fun d => d.studentId == i)).map
            (fun d => d.amount)).sum)).sum := hfib.symm
    _ = ((getStudentsBySchoolId s schoolId).map
          (fun st => (getStudentStats s st.id).totalRaised)).sum := by
        rw [List.map_map]
        refine congrArg _ (List.map_congr_left ?_)
        intro st _
        simp [studentStats_totalRaised]

/-- School-level donation count equals the sum of per-student counts. -/
theorem schoolStats_totalDonations_eq_sum (s : MemStorage) (schoolId : Nat)
    (hnd : ((getStudentsBySchoolId s schoolId).map
      (fun st => st.id)).Nodup) :
    (getSchoolStats s schoolId).totalDonations
      = ((getStudentsBySchoolId s schoolId).map
          (fun st => (getStudentStats s st.id).totalDonations)).sum := by
  have hfib := fiber_sum (fun d : Donation => d.studentId)
    (fun _ => (1 : ℕ)) s.donations
    ((getStudentsBySchoolId s schoolId).map (fun st => st.id)) hnd
  calc (getSchoolStats s schoolId).totalDonations
      = ((s.donations.filter (fun d =>
          decide (d.studentId ∈ (getStudentsBySchoolId s schoolId).map
            (fun st => st.id)))).map (fun _ => (1 : ℕ))).sum := by
        rw [← length_eq_sum_ones]
        simp [getSchoolStats, List.contains]
    _ = (((getStudentsBySchoolId s schoolId).map (fun st => st.id)).map
          (fun i => ((s.donations.filter (fun d => d.studentId == i)).map
            (fun _ => (1 : ℕ))).sum)).sum := hfib.symm
    _ = ((getStudentsBySchoolId s schoolId).map
          (fun st => (getStudentStats s st.id).totalDonations)).sum := by
        rw [List.map_map]
        refine congrArg _ (List.map_congr_left ?_)
        intro st _
        simp [studentStats_totalDonations, ← length_eq_sum_ones]

/-- C4: school-level aggregation is consistent with student-level
aggregation: both `totalDonations` and `totalRaised` of `getSchoolStats`
are the sums over the school's students of the corresponding
`getStudentStats` fields (student ids are duplicate-free, as they are the
keys of the students map). -/
theorem schoolStats_consistent (s : MemStorage) (schoolId : Nat)
    (hnd : ((getStudentsBySchoolId s schoolId).map
      (fun st => st.id)).Nodup) :
    (getSchoolStats s schoolId).totalDonations
      = ((getStudentsBySchoolId s schoolId).map
          (fun st => (getStudentStats s st.id).totalDonations)).sum
    ∧ (getSchoolStats s schoolId).totalRaised
      = ((getStudentsBySchoolId s schoolId).map
          (fun st => (getStudentStats s st.id).totalRaised)).sum :=
  ⟨schoolStats_totalDonations_eq_sum s schoolId hnd,
   schoolStats_totalRaised_eq_sum s schoolId hnd⟩

/-- The descending-amount comparator is transitive. -/
theorem rankedLE_trans (a b c : RankedStudent) :
    rankedLE a b → rankedLE b c → rankedLE a c := by
  simp only [rankedLE, decide_eq_true_eq]
  exact fun hab hbc => le_trans hbc hab

/-- The descending-amount comparator is total. -/
theorem rankedLE_total (a b : RankedStudent) :
    rankedLE a b || rankedLE b a := by
  simp only [rankedLE, Bool.or_eq_true, decide_eq_true_eq]
  exact le_total b.amountRaised a.amountRaised

/-- C3: `getTopPerformingStudents` returns at most `limit` entries (calls
without a limit use 10), sorted non-increasingly by `amountRaised`; for each
amount value, the returned entries with that amount are a prefix of the
enriched student list in original enumeration order (stable tie-break). -/
theorem getTopPerformingStudents_spec (s : MemStorage)
    (schoolId limit : Nat) :
    (getTopPerformingStudents s schoolId limit).length ≤ limit
    ∧ (getTopPerformingStudents s schoolId limit).Pairwise
        (fun a b => b.amountRaised ≤ a.amountRaised)
    ∧ (∀ q : ℚ,
        List.IsPrefix
          ((getTopPerformingStudents s schoolId limit).filter
            (fun r => r.amountRaised == q))
          ((withProgress s schoolId).filter
            (fun r => r.amountRaised == q)))
    ∧ getTopPerformingStudentsD s schoolId
        = getTopPerformingStudents s schoolId 10 := by
  refine ⟨?_, ?_, ?_, rfl⟩
  · rw [getTopPerformingStudents, List.length_take]
    exact min_le_left _ _
  · have hs := List.sorted_mergeSort rankedLE_trans rankedLE_total
      (withProgress s schoolId)
    have ht : List.Sublist (getTopPerformingStudents s schoolId limit)
        ((withProgress s schoolId).mergeSort rankedLE) :=
      List.take_sublist _ _
    exact (hs.sublist ht).imp (fun h => by simpa [rankedLE] using h)
  · intro q
    simp only [getTopPerformingStudents]
    have hallq : ∀ r ∈ (withProgress s schoolId).filter
        (fun r => r.amountRaised == q),
        (fun r : RankedStudent => r.amountRaised == q) r = true := by
      intro r hr
      exact (List.mem_filter.mp hr).2
    have hA : ((withProgress s schoolId).filter
        (fun r => r.amountRaised == q)).Pairwise
        (fun a b => rankedLE a b = true) := by
      apply List.pairwise_of_forall_mem_list
      intro a ha b hb
      have ha' : a.amountRaised = q := by
        simpa using (List.mem_filter.mp ha).2
      have hb' : b.amountRaised = q := by
        simpa using (List.mem_filter.mp hb).2
      simp [rankedLE, ha', hb']
    have hsubA : List.Sublist
        ((withProgress s schoolId).filter (fun r => r.amountRaised == q))
        ((withProgress s schoolId).mergeSort rankedLE) :=
      List.sublist_mergeSort rankedLE_trans rankedLE_total hA
        (List.filter_sublist _)
    have hsub2 : List.Sublist
        ((withProgress s schoolId).filter (fun r => r.amountRaised == q))
        (((withProgress s schoolId).mergeSort rankedLE).filter
          (fun r => r.amountRaised == q)) := by
      have h1 := hsubA.filter (fun r => r.amountRaised == q)
      rwa [List.filter_eq_self.mpr hallq] at h1
    have hperm : List.Perm
        (((withProgress s schoolId).mergeSort rankedLE).filter
          (fun r => r.amountRaised == q))
        ((withProgress s schoolId).filter (fun r => r.amountRaised == q)) :=
      (List.mergeSort_perm (withProgress s schoolId) rankedLE).filter _
    have heq : ((withProgress s schoolId).mergeSort rankedLE).filter
        (fun r => r.amountRaised == q)
        = (withProgress s schoolId).filter (fun r => r.amountRaised == q) :=
      (hsub2.eq_of_length hperm.length_eq.symm).symm
    have htp : List.IsPrefix
        (((withProgress s schoolId).mergeSort rankedLE).take limit)
        ((withProgress s schoolId).mergeSort rankedLE) :=
      ⟨((withProgress s schoolId).mergeSort rankedLE).drop limit,
        List.take_append_drop limit _⟩
    have hpre := htp.filter (fun r => r.amountRaised == q)
    rwa [heq] at hpre

/-- Witness for C4 at school 1 of the demo store. -/
theorem schoolStats_consistent_witness :
    (getSchoolStats demoStore 1).totalDonations
      = ((getStudentsBySchoolId demoStore 1).map
          (fun st => (getStudentStats demoStore st.id).totalDonations)).sum
    ∧ (getSchoolStats demoStore 1).totalRaised
      = ((getStudentsBySchoolId demoStore 1).map
          (fun st => (getStudentStats demoStore st.id).totalRaised)).sum :=
  schoolStats_consistent demoStore 1 (by decide)

/-- C5: the top-performers `goalProgress` is the rounded percentage
`round (100 * totalRaised / personalGoal)` when the goal is set and nonzero
and 0 otherwise (a total integer, never infinite or NaN), with no cap; the
dashboard computation is exactly the same value capped by `min 100`; the
values 200 vs 100 at goal 1 and total 2 exhibit the uncapped/capped
difference; and `withProgress` (hence `getTopPerformingStudents`) attaches
exactly the uncapped value for each student's own goal and stats. -/
theorem goalProgress_cap_spec :
    (∀ t : ℚ, topGoalProgress none t = 0)
    ∧ (∀ g t : ℚ, topGoalProgress (some g) t
        = if g = 0 then 0 else round (100 * t / g))
    ∧ (∀ (g : Option ℚ) (t : ℚ),
        dashboardGoalProgress g t = min 100 (topGoalProgress g t))
    ∧ topGoalProgress (some 1) 2 = 200
    ∧ dashboardGoalProgress (some 1) 2 = 100
    ∧ (∀ (s : MemStorage) (schoolId : Nat),
        withProgress s schoolId = (getStudentsBySchoolId s schoolId).map
          (fun st =>
            { student := st
              amountRaised := (getStudentStats s st.id).totalRaised
              goalProgress := topGoalProgress st.personalGoal
                (getStudentStats s st.id).totalRaised })) := by
  refine ⟨fun t => rfl, ?_, ?_, ?_, ?_, fun s schoolId => rfl⟩
  · intro g t
    by_cases hg : g = 0
    · simp [topGoalProgress, hg]
    · rw [topGoalProgress, if_neg hg, if_neg hg]
      refine congrArg round ?_
      field_simp
      ring
  · intro g t
    cases g with
    | none => rfl
    | some g =>
      by_cases hg : g = 0
      · simp [topGoalProgress, dashboardGoalProgress, hg]
      · simp [topGoalProgress, dashboardGoalProgress, hg]
  · show topGoalProgress (some 1) 2 = 200
    rw [topGoalProgress, if_neg one_ne_zero]
    norm_num [round_eq]
  · show dashboardGoalProgress (some 1) 2 = 100
    rw [dashboardGoalProgress, if_neg one_ne_zero]
    norm_num [round_eq]

/-- C7: the three aggregation operations, read as state transformers over
the store (their bodies never write a field of `this`), return the store
unchanged: every collection and every id counter is preserved. -/
theorem aggregation_pure (s : MemStorage)
    (studentId schoolId limit : Nat) :
    (getStudentStatsOp s studentId).2 = s
    ∧ (getSchoolStatsOp s schoolId).2 = s
    ∧ (getTopPerformingStudentsOp s schoolId limit).2 = s :=
  ⟨rfl, rfl, rfl⟩

/-- C9: a school id matching no student (a nonexistent school, or one with
no students) yields the all-zero school stats and an empty top-performers
list; both functions are total at this layer, so no not-found error can be
signalled. -/
theorem missing_school_spec (s : MemStorage) (schoolId limit : Nat)
    (h : ∀ st ∈ s.students, st.schoolId ≠ schoolId) :
    getSchoolStats s schoolId
      = { totalRaised := 0, totalDonations := 0, activeStudents := 0 }
    ∧ getTopPerformingStudents s schoolId limit = [] := by
  have hempty : getStudentsBySchoolId s schoolId = [] := by
    rw [getStudentsBySchoolId, List.filter_eq_nil_iff]
    intro st hst
    simpa using h st hst
  constructor
  · simp [getSchoolStats, hempty]
  · simp [getTopPerformingStudents, withProgress, hempty]

/-- Witness for C9: school id 3 exists nowhere in the demo store. -/
theorem missing_school_spec_witness :
    getSchoolStats demoStore 3
      = { totalRaised := 0, totalDonations := 0, activeStudents := 0 }
    ∧ getTopPerformingStudents demoStore 3 7 = [] :=
  missing_school_spec demoStore 3 7 (by decide)

/-- C10: `updateEvent` on a missing id returns `undefined` and leaves the
store unchanged; on an existing id it returns the stored event merged with
the patch, which keeps `id`, `createdAt` and every absent field and takes
every present field from the patch, and it rewrites only that entry of the
events collection in place (all other collections untouched). -/
theorem updateEvent_spec (s : MemStorage) (id : Nat) (p : EventPatch) :
    (getEvent s id = none → updateEvent s id p = (none, s))
    ∧ (∀ e, getEvent s id = some e →
        (updateEvent s id p).1 = some (applyPatch e p)
        ∧ (applyPatch e p).id = e.id
        ∧ (applyPatch e p).createdAt = e.createdAt
        ∧ (applyPatch e p).schoolId = p.schoolId.getD e.schoolId
        ∧ (applyPatch e p).title = p.title.getD e.title
        ∧ (applyPatch e p).description = p.description.getD e.description
        ∧ (applyPatch e p).date = p.date.getD e.date
        ∧ (applyPatch e p).location = p.location.getD e.location
        ∧ (updateEvent s id p).2.events
            = s.events.map
                (fun x => if x.id == id then applyPatch e p else x)
        ∧ (updateEvent s id p).2.users = s.users
        ∧ (updateEvent s id p).2.schools = s.schools
        ∧ (updateEvent s id p).2.students = s.students
        ∧ (updateEvent s id p).2.donations = s.donations) := by
  constructor
  · intro h
    rw [updateEvent, h]
  · intro e he
    have he' : s.events.find? (fun x => x.id == id) = some e := he
    have hpa := List.find?_some he'
    have hany : s.events.any (fun x => x.id == id) = true := by
      rw [List.any_eq_true]
      exact ⟨e, List.mem_of_find?_eq_some he', hpa⟩
    rw [updateEvent, he]
    refine ⟨rfl, rfl, rfl, rfl, rfl, rfl, rfl, rfl, ?_, rfl, rfl, rfl, rfl⟩
    simp only [mapSet, hany, if_true]

/-- Witness for C10: both branches at the one-event demo store. -/
theorem updateEvent_spec_witness :
    updateEvent demoEventStore 99 demoPatch = (none, demoEventStore)
    ∧ (updateEvent demoEventStore 1 demoPatch).1
        = some (applyPatch demoEvent demoPatch) :=
  ⟨(updateEvent_spec demoEventStore 99 demoPatch).1 rfl,
   ((updateEvent_spec demoEventStore 1 demoPatch).2 demoEvent rfl).1⟩

theorem goodIds_empty : GoodIds [] 1 :=
  ⟨List.Pairwise.nil, by simp, Nat.one_pos⟩

/-- Appending the current counter value keeps the id invariant. -/
theorem goodIds_snoc {ids : List Nat} {c : Nat} (h : GoodIds ids c) :
    GoodIds (ids ++ [c]) (c + 1) := by
  obtain ⟨hpw, hbnd, hc⟩ := h
  refine ⟨?_, ?_, Nat.succ_pos c⟩
  · rw [List.pairwise_append]
    refine ⟨hpw, List.pairwise_singleton _ _, ?_⟩
    intro a ha b hb
    rw [List.mem_singleton] at hb
    subst hb
    exact (hbnd a ha).2
  · intro i hi
    rcases List.mem_append.mp hi with h1 | h2
    · exact ⟨(hbnd i h1).1, Nat.lt_succ_of_lt (hbnd i h1).2⟩
    · rw [List.mem_singleton] at h2
      subst h2
      exact ⟨hc, Nat.lt_succ_self _⟩

/-- JS `Map.set` with a key absent from the collection appends. -/
theorem mapSet_fresh {α : Type} (getId : α → Nat) {l : List α} {c : Nat}
    (hfresh : ∀ x ∈ l, getId x ≠ c) (a : α) :
    mapSet getId l c a = l ++ [a] := by
  have hno : l.any (fun x => getId x == c) = false := by
    rw [List.any_eq_false]
    intro x hx
    simpa using hfresh x hx
  simp only [mapSet, hno, Bool.false_eq_true, if_false]

theorem storeInv_empty : StoreInv MemStorage.empty :=
  ⟨goodIds_empty, goodIds_empty, goodIds_empty, goodIds_empty, goodIds_empty⟩

/-- Under the invariant the freshly assigned id is not yet a key, so each
create operation appends and bumps the counter, preserving the invariant. -/
theorem storeInv_applyOp {s : MemStorage} (h : StoreInv s) (op : Op) :
    StoreInv (applyOp s op) := by
  obtain ⟨hu, hsch, hst, hd, he⟩ := h
  cases op with
  | user ins now =>
    refine ⟨?_, hsch, hst, hd, he⟩
    have hfresh : ∀ x ∈ s.users, User.id x ≠ s.userCurrentId := by
      intro x hx
      exact Nat.ne_of_lt
        ((hu.2.1 x.id (List.mem_map_of_mem User.id hx)).2)
    simp only [applyOp, createUser]
    rw [mapSet_fresh User.id hfresh, List.map_append]
    exact goodIds_snoc hu
  | school ins now =>
    refine ⟨hu, ?_, hst, hd, he⟩
    have hfresh : ∀ x ∈ s.schools, School.id x ≠ s.schoolCurrentId := by
      intro x hx
      exact Nat.ne_of_lt
        ((hsch.2.1 x.id (List.mem_map_of_mem School.id hx)).2)
    simp only [applyOp, createSchool]
    rw [mapSet_fresh School.id hfresh, List.map_append]
    exact goodIds_snoc hsch
  | student ins now =>
    refine ⟨hu, hsch, ?_, hd, he⟩
    have hfresh : ∀ x ∈ s.students, Student.id x ≠ s.studentCurrentId := by
      intro x hx
      exact Nat.ne_of_lt
        ((hst.2.1 x.id (List.mem_map_of_mem Student.id hx)).2)
    simp only [applyOp, createStudent]
    rw [mapSet_fresh Student.id hfresh, List.map_append]
    exact goodIds_snoc hst
  | donation ins now =>
    refine ⟨hu, hsch, hst, ?_, he⟩
    have hfresh : ∀ x ∈ s.donations,
        Donation.id x ≠ s.donationCurrentId := by
      intro x hx
      exact Nat.ne_of_lt
        ((hd.2.1 x.id (List.mem_map_of_mem Donation.id hx)).2)
    simp only [applyOp, createDonation]
    rw [mapSet_fresh Donation.id hfresh, List.map_append]
    exact goodIds_snoc hd
  | event ins now =>
    refine ⟨hu, hsch, hst, hd, ?_⟩
    have hfresh : ∀ x ∈ s.events, Event.id x ≠ s.eventCurrentId := by
      intro x hx
      exact Nat.ne_of_lt
        ((he.2.1 x.id (List.mem_map_of_mem Event.id hx)).2)
    simp only [applyOp, createEvent]
    rw [mapSet_fresh Event.id hfresh, List.map_append]
    exact goodIds_snoc he

theorem storeInv_runOps (ops : List Op) : StoreInv (runOps ops) := by
  have main : ∀ (l : List Op) (s : MemStorage), StoreInv s →
      StoreInv (l.foldl applyOp s) := by
    intro l
    induction l with
    | nil => exact fun s h => h
    | cons op rest ih => exact fun s h => ih _ (storeInv_applyOp h op)
  exact main ops MemStorage.empty storeInv_empty

/-- C8: after any sequence of create operations from the initial store,
each collection's id sequence prefixed with 0 is strictly increasing — the
assigned ids are unique positive integers, strictly increasing in creation
order (collections are kept in insertion order). -/
theorem create_ids_monotone (ops : List Op) :
    ((0 :: (runOps ops).users.map User.id).Pairwise (· < ·))
    ∧ ((0 :: (runOps ops).schools.map School.id).Pairwise (· < ·))
    ∧ ((0 :: (runOps ops).students.map Student.id).Pairwise (· < ·))
    ∧ ((0 :: (runOps ops).donations.map Donation.id).Pairwise (· < ·))
    ∧ ((0 :: (runOps ops).events.map Event.id).Pairwise (· < ·)) := by
  obtain ⟨hu, hsch, hst, hd, he⟩ := storeInv_runOps ops
  refine ⟨?_, ?_, ?_, ?_, ?_⟩
  · exact List.pairwise_cons.mpr ⟨fun i hi => (hu.2.1 i hi).1, hu.1⟩
  · exact List.pairwise_cons.mpr ⟨fun i hi => (hsch.2.1 i hi).1, hsch.1⟩
  · exact List.pairwise_cons.mpr ⟨fun i hi => (hst.2.1 i hi).1, hst.1⟩
  · exact List.pairwise_cons.mpr ⟨fun i hi => (hd.2.1 i hi).1, hd.1⟩
  · exact List.pairwise_cons.mpr ⟨fun i hi => (he.2.1 i hi).1, he.1⟩

/-- The descending-total comparator for grade groups is transitive. -/
theorem rankingLE_trans (a b c : ClassRanking) :
    rankingLE a b → rankingLE b c → rankingLE a c := by
  simp only [rankingLE, decide_eq_true_eq]
  exact fun hab hbc => le_trans hbc hab

/-- The descending-total comparator for grade groups is total. -/
theorem rankingLE_total (a b : ClassRanking) :
    rankingLE a b || rankingLE b a := by
  simp only [rankingLE, Bool.or_eq_true, decide_eq_true_eq]
  exact le_total b.totalRaised a.totalRaised

/-- The first-occurrence grade keys are duplicate-free. -/
theorem gradeKeys_nodup : ∀ l : List Student, (gradeKeys l).Nodup
  | [] => List.nodup_nil
  | st :: rest => by
    rw [gradeKeys, List.nodup_cons]
    refine ⟨?_, (gradeKeys_nodup rest).filter _⟩
    intro hmem
    have := (List.mem_filter.mp hmem).2
    simp at this

/-- Every student's grade occurs among the grade keys. -/
theorem mem_gradeKeys : ∀ (l : List Student) (st : Student),
    st ∈ l → st.grade ∈ gradeKeys l
  | st0 :: rest, st, h => by
    rw [gradeKeys]
    rcases List.mem_cons.mp h with h1 | h2
    · subst h1
      exact List.mem_cons_self _ _
    · by_cases hg : st.grade = st0.grade
      · rw [hg]
        exact List.mem_cons_self _ _
      · refine List.mem_cons_of_mem _ (List.mem_filter.mpr
          ⟨mem_gradeKeys rest st h2, ?_⟩)
        simp [hg]

/-- A sum of rounded values differs from the sum of the values by at most
half the number of summands. -/
theorem abs_sum_round_sub : ∀ xs : List ℚ,
    |(xs.map (fun x => ((round x : ℤ) : ℚ))).sum - xs.sum|
      ≤ (xs.length : ℚ) / 2
  | [] => by simp
  | x :: xs => by
    have ih := abs_sum_round_sub xs
    have hx : |((round x : ℤ) : ℚ) - x| ≤ 1 / 2 := by
      rw [abs_sub_comm]
      exact abs_sub_round x
    have hsplit : ((x :: xs).map (fun x => ((round x : ℤ) : ℚ))).sum
        - (x :: xs).sum
        = (((round x : ℤ) : ℚ) - x)
          + ((xs.map (fun x => ((round x : ℤ) : ℚ))).sum - xs.sum) := by
      simp only [List.map_cons, List.sum_cons]
      ring
    rw [hsplit]
    calc |(((round x : ℤ) : ℚ) - x)
          + ((xs.map (fun x => ((round x : ℤ) : ℚ))).sum - xs.sum)|
        ≤ |((round x : ℤ) : ℚ) - x|
          + |(xs.map (fun x => ((round x : ℤ) : ℚ))).sum - xs.sum| :=
          abs_add _ _
      _ ≤ 1 / 2 + (xs.length : ℚ) / 2 := add_le_add hx ih
      _ = ((x :: xs).length : ℚ) / 2 := by
          simp only [List.length_cons]
          push_cast
          ring

/-- The grade-group totals partition the school total: grouping by grade
preserves the sum of per-student totals, which is the school's
`totalRaised`. -/
theorem sum_gradeTotals (s : MemStorage) (schoolId : Nat)
    (hnd : ((getStudentsBySchoolId s schoolId).map
      (fun st => st.id)).Nodup) :
    ((gradeKeys (getStudentsBySchoolId s schoolId)).map
      (fun g => gradeTotal s (getStudentsBySchoolId s schoolId) g)).sum
      = (getSchoolStats s schoolId).totalRaised := by
  have hfib := fiber_sum (fun st : Student => st.grade)
    (fun st => (getStudentStats s st.id).totalRaised)
    (getStudentsBySchoolId s schoolId)
    (gradeKeys (getStudentsBySchoolId s schoolId))
    (gradeKeys_nodup _)
  have hful : (getStudentsBySchoolId s schoolId).filter
      (fun st => decide (st.grade
        ∈ gradeKeys (getStudentsBySchoolId s schoolId)))
      = getStudentsBySchoolId s schoolId := by
    rw [List.filter_eq_self]
    intro st hst
    simpa using mem_gradeKeys _ st hst
  calc ((gradeKeys (getStudentsBySchoolId s schoolId)).map
        (fun g => gradeTotal s (getStudentsBySchoolId s schoolId) g)).sum
      = (((getStudentsBySchoolId s schoolId).filter
          (fun st => decide (st.grade
            ∈ gradeKeys (getStudentsBySchoolId s schoolId)))).map
          (fun st => (getStudentStats s st.id).totalRaised)).sum := by
        simpa only [gradeTotal] using hfib
    _ = ((getStudentsBySchoolId s schoolId).map
          (fun st => (getStudentStats s st.id).totalRaised)).sum := by
        rw [hful]
    _ = (getSchoolStats s schoolId).totalRaised :=
        (schoolStats_totalRaised_eq_sum s schoolId hnd).symm

/-- C6: the class rankings are sorted descending by group total; when the
school's `totalRaised` is positive the integer percentages (each
`round (100 * gradeTotal / schoolTotal)`) sum to 100 up to the accumulated
rounding error (at most half a point per group), and when it is not
positive every percentage is 0 and so is their sum. -/
theorem classRankings_spec (s : MemStorage) (schoolId : Nat)
    (hnd : ((getStudentsBySchoolId s schoolId).map
      (fun st => st.id)).Nodup) :
    (classRankings s schoolId).Pairwise
      (fun a b => b.totalRaised ≤ a.totalRaised)
    ∧ (if 0 < (getSchoolStats s schoolId).totalRaised then
        |(((classRankings s schoolId).map
            (fun r => (r.percentage : ℚ))).sum) - 100|
          ≤ ((classRankings s schoolId).length : ℚ) / 2
      else
        ((classRankings s schoolId).map (fun r => r.percentage)).sum
          = 0) := by
  have hdef : classRankings s schoolId
      = ((gradeKeys (getStudentsBySchoolId s schoolId)).map (fun g =>
          ({ grade := g
             totalRaised := gradeTotal s (getStudentsBySchoolId s schoolId) g
             percentage :=
               if 0 < (getSchoolStats s schoolId).totalRaised then
                 round ((gradeTotal s (getStudentsBySchoolId s schoolId) g
                   / (getSchoolStats s schoolId).totalRaised) * 100)
               else 0 } : ClassRanking))).mergeSort rankingLE := rfl
  have hperm := List.mergeSort_perm
    ((gradeKeys (getStudentsBySchoolId s schoolId)).map (fun g =>
      ({ grade := g
         totalRaised := gradeTotal s (getStudentsBySchoolId s schoolId) g
         percentage :=
           if 0 < (getSchoolStats s schoolId).totalRaised then
             round ((gradeTotal s (getStudentsBySchoolId s schoolId) g
               / (getSchoolStats s schoolId).totalRaised) * 100)
           else 0 } : ClassRanking))) rankingLE
  have hlen : (classRankings s schoolId).length
      = (gradeKeys (getStudentsBySchoolId s schoolId)).length := by
    rw [hdef, List.length_mergeSort, List.length_map]
  constructor
  · rw [hdef]
    exact (List.sorted_mergeSort rankingLE_trans rankingLE_total _).imp
      (fun h => by simpa [rankingLE] using h)
  · by_cases hT : 0 < (getSchoolStats s schoolId).totalRaised
    · rw [if_pos hT]
      have hmapsum : ((classRankings s schoolId).map
          (fun r => (r.percentage : ℚ))).sum
          = (((gradeKeys (getStudentsBySchoolId s schoolId)).map (fun g =>
              ({ grade := g
                 totalRaised :=
                   gradeTotal s (getStudentsBySchoolId s schoolId) g
                 percentage :=
                   if 0 < (getSchoolStats s schoolId).totalRaised then
                     round ((gradeTotal s
                       (getStudentsBySchoolId s schoolId) g
                       / (getSchoolStats s schoolId).totalRaised) * 100)
                   else 0 } : ClassRanking))).map
              (fun r => (r.percentage : ℚ))).sum := by
        rw [hdef]
        exact (hperm.map (fun r => (r.percentage : ℚ))).sum_eq
      have hbase : ((gradeKeys (getStudentsBySchoolId s schoolId)).map
          (fun g =>
            ({ grade := g
               totalRaised :=
                 gradeTotal s (getStudentsBySchoolId s schoolId) g
               percentage :=
                 if 0 < (getSchoolStats s schoolId).totalRaised then
                   round ((gradeTotal s (getStudentsBySchoolId s schoolId) g
                     / (getSchoolStats s schoolId).totalRaised) * 100)
                 else 0 } : ClassRanking))).map
            (fun r => (r.percentage : ℚ))
          = ((gradeKeys (getStudentsBySchoolId s schoolId)).map (fun g =>
              (gradeTotal s (getStudentsBySchoolId s schoolId) g
                / (getSchoolStats s schoolId).totalRaised) * 100)).map
              (fun x => ((round x : ℤ) : ℚ)) := by
        rw [List.map_map, List.map_map]
        refine List.map_congr_left ?_
        intro g _
        show ((if 0 < (getSchoolStats s schoolId).totalRaised then
            round ((gradeTotal s (getStudentsBySchoolId s schoolId) g
              / (getSchoolStats s schoolId).totalRaised) * 100)
          else 0 : ℤ) : ℚ)
          = ((round ((gradeTotal s (getStudentsBySchoolId s schoolId) g
              / (getSchoolStats s schoolId).totalRaised) * 100) : ℤ) : ℚ)
        rw [if_pos hT]
      have hxs : ((gradeKeys (getStudentsBySchoolId s schoolId)).map
          (fun g => (gradeTotal s (getStudentsBySchoolId s schoolId) g
            / (getSchoolStats s schoolId).totalRaised) * 100)).sum
          = 100 := by
        rw [List.sum_map_mul_right]
        simp only [div_eq_mul_inv]
        rw [List.sum_map_mul_right, sum_gradeTotals s schoolId hnd,
          mul_inv_cancel₀ (ne_of_gt hT), one_mul]
      have hbound := abs_sum_round_sub
        ((gradeKeys (getStudentsBySchoolId s schoolId)).map
          (fun g => (gradeTotal s (getStudentsBySchoolId s schoolId) g
            / (getSchoolStats s schoolId).totalRaised) * 100))
      rw [hxs, List.length_map] at hbound
      rw [hmapsum, hbase, hlen]
      exact hbound
    · rw [if_neg hT]
      rw [hdef, (hperm.map (fun r => r.percentage)).sum_eq, List.map_map]
      apply List.sum_eq_zero
      intro x hx
      obtain ⟨g, hg, rfl⟩ := List.mem_map.mp hx
      show (if 0 < (getSchoolStats s schoolId).totalRaised then
          round ((gradeTotal s (getStudentsBySchoolId s schoolId) g
            / (getSchoolStats s schoolId).totalRaised) * 100)
        else 0) = 0
      rw [if_neg hT]

/-- Witness for C6 at school 1 of the demo store (positive school total). -/
theorem classRankings_spec_witness :
    (classRankings demoStore 1).Pairwise
      (fun a b => b.totalRaised ≤ a.totalRaised)
    ∧ (if 0 < (getSchoolStats demoStore 1).totalRaised then
        |(((classRankings demoStore 1).map
            (fun r => (r.percentage : ℚ))).sum) - 100|
          ≤ ((classRankings demoStore 1).length : ℚ) / 2
      else
        ((classRankings demoStore 1).map (fun r => r.percentage)).sum
          = 0) :=
  classRankings_spec demoStore 1 (by decide)

end Funedu
